import Mathlib

/-!
Verification of the render-coalescing and sync subsystem of the
Tideflow markdown-to-PDF editor.

The development shallowly embeds, as executable Lean definitions:

* `parseCitationError` and the body of `handleAutoRender` from
  `src/hooks/useContentManagement.ts` — the Render Coalescer.  The
  JavaScript body is a `try / catch / finally` block; an early `return`
  inside the `try` still executes the `finally` block, and the `finally`
  block may synchronously re-invoke `handleAutoRender` (it does so at
  most once, because it clears the in-flight flag and the pending slot
  before re-invoking, so the re-entered call goes straight to the
  compile-start branch).  The embedding mirrors this with a fuelled
  interpreter `coGo` over two phases (the function body and the
  `finally` block); fuel 4 always exceeds the real recursion depth.
* The CodeMirror update listener and the `editorCustomState` state
  field from `src/hooks/useCodeMirrorSetup.ts` — the Idle/Typing
  Detector and edit routing.
* The timing constants from `src/constants/timing.ts`.
* The Anchor Offset Resolver polling loop (its implementation is not
  under `src/`; it is modelled from the specification, using the
  constants that are under `src/`).

Asynchrony is modelled by an explicit event step function: a `submit`
event is one synchronous invocation of `handleAutoRender` (the function
suspends at `await renderTypst`, recorded as an outstanding
`CompileCall`), and a `complete` event is the resumption of one
outstanding call with the result of the compiler.  Ghost fields record
the compile history (`compiledTexts`, `successCount`) and the editor
document (`docContent`, which the coalescer never touches).
-/

/-! ## Citation-error classification (`parseCitationError`) -/

/-- The backquote character, written via its code point. -/
def backquote : Char := Char.ofNat 96

/-- Case-insensitive character comparison, mirroring the `/i` regex flag. -/
def charLowerEq (a b : Char) : Bool := a.toLower == b.toLower

/-- When `pat` is a case-insensitive prefix of `text`, return the rest of
`text`; otherwise `none`.  Mirrors matching a literal part of the regex. -/
def stripLiteralCI : List Char → List Char → Option (List Char)
  | [], text => some text
  | _ :: _, [] => none
  | p :: ps, t :: ts => if charLowerEq p t then stripLiteralCI ps ts else none

/-- Split a character list at the first backquote: the characters before it
and the characters after it.  `none` when no backquote occurs.  Mirrors the
regex group, which matches a maximal run of non-backquote characters. -/
def splitAtBackquote : List Char → Option (List Char × List Char)
  | [] => none
  | c :: cs =>
    if c == backquote then some ([], cs)
    else
      match splitAtBackquote cs with
      | some (k, rest) => some (c :: k, rest)
      | none => none

/-- The literal part of the citation regex before the key (includes the
opening backquote). -/
def citeHead : List Char := ("key ").data ++ [backquote]

/-- The literal part of the citation regex after the key (follows the
closing backquote). -/
def citeTail : List Char := (" does not exist in the bibliography").data

/-- Try to match the citation-error pattern at the start of `text`,
returning the captured key. -/
def matchCitationAt (text : List Char) : Option (List Char) :=
  match stripLiteralCI citeHead text with
  | none => none
  | some afterHead =>
    match splitAtBackquote afterHead with
    | none => none
    | some (key, rest) =>
      if key.isEmpty then none
      else
        match stripLiteralCI citeTail rest with
        | none => none
        | some _ => some key

/-- Scan for the citation-error pattern at every start position, as the
regex engine does. -/
def scanCitation : List Char → Option (List Char)
  | [] => none
  | c :: cs =>
    match matchCitationAt (c :: cs) with
    | some k => some k
    | none => scanCitation cs

/-- From `useContentManagement.ts`: check whether an error message is a
missing-citation-key error and extract the key.  The source matches the
regex pattern for: key, a backquoted name, does not exist in the
bibliography (case-insensitively). -/
def parseCitationError (errorMsg : String) : Option String :=
  (scanCitation errorMsg.data).map (fun k => String.mk k)

/-! ## Timing constants (`src/constants/timing.ts`) -/

namespace TIMING

/-- Interval for polling operations (offset computation, anchor detection). -/
def OFFSET_POLL_INTERVAL_MS : Nat := 120

/-- Idle threshold after last keystroke before considering user stopped typing. -/
def TYPING_IDLE_THRESHOLD_MS : Nat := 800

/-- Default debounce for rendering Typst PDFs after content changes. -/
def RENDER_DEBOUNCE_DEFAULT_MS : Nat := 400

/-- Timeout for offset transition watcher. -/
def OFFSET_POLL_TIMEOUT_MS : Nat := 200

/-- Maximum polling attempts for offset detection. -/
def MAX_OFFSET_POLL_ATTEMPTS : Nat := 8

end TIMING

/-! ## Data model -/

/-- A source map published by a successful compile.  Its internals are not
inspected by the coalescer; per the data model it is an immutable
generation-tagged snapshot. -/
structure SourceMap where
  generation : Nat
deriving DecidableEq, Repr

/-- The value resolved by `renderTypst`: a PDF path plus a source map. -/
structure RenderedDocument where
  pdfPath : String
  sourceMap : SourceMap
deriving DecidableEq, Repr

/-- The status tag of the compile status.  The `CompileStatus` interface in
`useContentManagement.ts` uses only `running`, `ok` and `error`; the store
that owns the field starts it at `idle` (the store module is not under
`src/`; the initial `idle` value is modelled from the specification). -/
inductive RStatus
  | idle
  | running
  | ok
  | error
deriving DecidableEq, Repr

/-- The `CompileStatus` record of `useContentManagement.ts`.  Optional
fields absent from a `setCompileStatus` call are `none`, because the store
value is replaced wholesale. -/
structure CompileStatus where
  status : RStatus
  pdf_path : Option String := none
  source_map : Option SourceMap := none
  message : Option String := none
  details : Option String := none
deriving DecidableEq, Repr

/-- The sync mode of the scroll sync controller. -/
inductive SyncMode
  | awaitingFirstRender
  | auto
  | manual
deriving DecidableEq, Repr

/-- One outstanding `renderTypst` invocation: the text passed to the
compiler, and the value of `wasSourceMapNull` captured when the call
started.  `id` identifies the outstanding promise. -/
structure CompileCall where
  id : Nat
  text : String
  wasSourceMapNull : Bool
deriving DecidableEq, Repr

/-- The state touched by `handleAutoRender`, plus ghost bookkeeping.

* `inFlight` is `autoRenderInFlightRef.current`.
* `pending` is `pendingRenderRef.current` (the single-slot latest-wins
  buffer).
* `compileStatus`, `sourceMap`, `syncMode` are the store fields written
  through `setCompileStatus`, `setSourceMap`, `setSyncMode`.
* `lastCitationWarning` is `lastCitationWarningRef.current`.
* `toasts` records the keys of the citation warnings shown via `addToast`,
  in order (ghost history of notices).
* `docContent` is the editor document text; `handleAutoRender` has no
  access to it (frame ghost).
* `inFlightCalls` are the outstanding `renderTypst` promises (ghost).
* `compiledTexts` records every text ever passed to `renderTypst`, in
  order (ghost history).
* `nextCallId` numbers the outstanding promises (ghost).
* `successCount` counts the successful compiles whose results were
  published (ghost). -/
structure CoalescerState where
  inFlight : Bool
  pending : Option String
  compileStatus : CompileStatus
  sourceMap : Option SourceMap
  syncMode : SyncMode
  lastCitationWarning : Option (String × Nat)
  toasts : List String
  docContent : String
  inFlightCalls : List CompileCall
  compiledTexts : List String
  nextCallId : Nat
  successCount : Nat
deriving DecidableEq, Repr

/-! ## The render coalescer (`handleAutoRender`) -/

/-- The synchronous prefix of a compile start, from `handleAutoRender`:
set the in-flight flag, capture `wasSourceMapNull`, set the compile status
to `running`, and call `renderTypst` (recorded as a new outstanding call;
the function then suspends at the `await`). -/
def startCompile (content : String) (s : CoalescerState) : CoalescerState :=
  { s with
    inFlight := true
    compileStatus := { status := RStatus.running }
    inFlightCalls :=
      s.inFlightCalls ++ [{ id := s.nextCallId, text := content, wasSourceMapNull := s.sourceMap.isNone }]
    compiledTexts := s.compiledTexts ++ [content]
    nextCallId := s.nextCallId + 1 }

/-- The two synchronous phases of `handleAutoRender`: entering the function
body, and executing the `finally` block. -/
inductive Phase
  | invoke (content : String)
  | runFinally
deriving DecidableEq, Repr

/-- Fuelled interpreter for the synchronous control flow of
`handleAutoRender`.

`Phase.invoke content` is the function body: if the abort signal is set,
return (through the `finally` block); if a render is already in flight,
record the latest content in the pending slot and return (again through
the `finally` block); otherwise start a compile and suspend at the
`await`.

`Phase.runFinally` is the `finally` block: clear the in-flight flag, take
and clear the pending slot, and, when a pending text exists and the signal
is not aborted, re-invoke `handleAutoRender` with it.

The real recursion depth is at most three phases (body, `finally`,
re-entered body), because the `finally` block clears both the in-flight
flag and the pending slot before re-invoking; fuel 4 therefore never runs
out. -/
def coGo : Nat → Phase → Bool → CoalescerState → CoalescerState
  | 0, _, _, s => s
  | fuel + 1, Phase.invoke content, aborted, s =>
    if aborted then coGo fuel Phase.runFinally aborted s
    else if s.inFlight then coGo fuel Phase.runFinally aborted { s with pending := some content }
    else startCompile content s
  | fuel + 1, Phase.runFinally, aborted, s =>
    let pend := s.pending
    let s1 := { s with inFlight := false, pending := none }
    match pend with
    | some p => if aborted then s1 else coGo fuel (Phase.invoke p) aborted s1
    | none => s1

/-- From `handleAutoRender`: whether a citation warning should be shown,
given the last warning shown and the current time.  Show when there is no
previous warning, the key differs, or more than 3000 ms have passed. -/
def shouldShowCitationWarning (lastWarning : Option (String × Nat)) (key : String)
    (now : Nat) : Bool :=
  match lastWarning with
  | none => true
  | some lw => decide (lw.1 ≠ key) || decide (3000 < now - lw.2)

/-- The success continuation of `handleAutoRender` after `await renderTypst`
returns (signal not aborted): publish the source map, set the compile
status to `ok` with the PDF path and source map, and, when the source map
was null when the call started, set the sync mode to `auto`.  (The
subsequent temporary-PDF cleanup only logs on failure and touches none of
this state.) -/
def publishSuccess (c : CompileCall) (doc : RenderedDocument) (s : CoalescerState) :
    CoalescerState :=
  let s :=
    { s with
      sourceMap := some doc.sourceMap
      compileStatus :=
        { status := RStatus.ok, pdf_path := some doc.pdfPath, source_map := some doc.sourceMap }
      successCount := s.successCount + 1 }
  if c.wasSourceMapNull then { s with syncMode := SyncMode.auto } else s

/-- The `catch` branch of `handleAutoRender` (signal not aborted): when the
error message is a missing-citation error, rate-limit and possibly show a
warning toast, leaving the compile status and source map alone; for any
other error, set the compile status to `error` with message and details
and clear the source map. -/
def handleFailure (errorMsg : String) (now : Nat) (s : CoalescerState) : CoalescerState :=
  match parseCitationError errorMsg with
  | some key =>
    if shouldShowCitationWarning s.lastCitationWarning key now then
      { s with
        lastCitationWarning := some (key, now)
        toasts := s.toasts ++ [key] }
    else s
  | none =>
    { s with
      compileStatus :=
        { status := RStatus.error, message := some "Auto-render failed", details := some errorMsg }
      sourceMap := none }

/-- The outcome with which an outstanding `renderTypst` promise settles. -/
inductive CompileOutcome
  | success (doc : RenderedDocument)
  | failure (errorMsg : String)
deriving DecidableEq, Repr

/-- Look up an outstanding call by id. -/
def findCall (id : Nat) : List CompileCall → Option CompileCall
  | [] => none
  | c :: cs => if c.id = id then some c else findCall id cs

/-- Remove an outstanding call by id (first occurrence). -/
def removeCall (id : Nat) : List CompileCall → List CompileCall
  | [] => []
  | c :: cs => if c.id = id then cs else c :: removeCall id cs

/-- Resume `handleAutoRender` at the `await renderTypst` suspension point:
the outstanding call `id` settles with `outcome` at time `now`, with the
abort signal in state `aborted`.  On success with the signal aborted, or
any settled outcome with the signal aborted, the body returns without
state updates; otherwise the success continuation or the `catch` branch
runs.  In every case the `finally` block runs afterwards.  A `complete`
event whose id matches no outstanding call is not a real event and leaves
the state unchanged. -/
def completeStep (id : Nat) (outcome : CompileOutcome) (aborted : Bool) (now : Nat)
    (s : CoalescerState) : CoalescerState :=
  match findCall id s.inFlightCalls with
  | none => s
  | some c =>
    let s := { s with inFlightCalls := removeCall id s.inFlightCalls }
    if aborted then coGo 4 Phase.runFinally true s
    else
      match outcome with
      | CompileOutcome.success doc => coGo 4 Phase.runFinally false (publishSuccess c doc s)
      | CompileOutcome.failure msg => coGo 4 Phase.runFinally false (handleFailure msg now s)

/-- The events of the coalescer: a `submit` is one invocation of
`handleAutoRender` (with the state of its abort signal), a `complete` is
the settling of one outstanding `renderTypst` promise (with the state of
that call's abort signal at that moment, and the current time used by the
citation rate limiter). -/
inductive CoEvent
  | submit (content : String) (aborted : Bool)
  | complete (id : Nat) (outcome : CompileOutcome) (aborted : Bool) (now : Nat)
deriving DecidableEq, Repr

/-- The abort-signal flag carried by an event. -/
def CoEvent.abortedFlag : CoEvent → Bool
  | CoEvent.submit _ ab => ab
  | CoEvent.complete _ _ ab _ => ab

/-- One event step of the coalescer. -/
def coStep (s : CoalescerState) (e : CoEvent) : CoalescerState :=
  match e with
  | CoEvent.submit content aborted => coGo 4 (Phase.invoke content) aborted s
  | CoEvent.complete id outcome aborted now => completeStep id outcome aborted now s

/-- The initial state of a session: nothing in flight, no pending text, no
source map.  The initial `idle` compile status and the initial
`awaitingFirstRender` sync mode are owned by the store, whose module is
not under `src/`; they are modelled from the specification. -/
def initState : CoalescerState :=
  { inFlight := false
    pending := none
    compileStatus := { status := RStatus.idle }
    sourceMap := none
    syncMode := SyncMode.awaitingFirstRender
    lastCitationWarning := none
    toasts := []
    docContent := ""
    inFlightCalls := []
    compiledTexts := []
    nextCallId := 0
    successCount := 0 }

/-- Run a sequence of events from the initial state. -/
def runTrace (tr : List CoEvent) : CoalescerState := tr.foldl coStep initState

/-! ## Editor update listener and typing detector (`useCodeMirrorSetup.ts`)

The update listener distinguishes user edits from programmatic document
updates by the programmatic-update transaction tag (the source calls it
the programmatic update annotation).  The custom CodeMirror state field
(`editorCustomState`) additionally tracks a typing flag driven by a
user-typing transaction tag (the source calls it the user typing
annotation; no dispatch in the repository attaches it).  Timers are
modelled as absolute deadlines: `clearTimeout` followed by `setTimeout`
is a last-write-wins replacement of the deadline, and a timer-fire event
is only effective at exactly its recorded deadline. -/

/-- The `update` function of the `editorCustomState` state field: a
transaction carrying the user-typing tag sets the field to typing with
the current time; a transaction carrying the programmatic-update tag
clears the typing flag; any other transaction leaves the field alone. -/
def editorCustomStateUpdate (value : Bool × Nat) (userTypingTag : Bool)
    (programmaticTag : Bool) (now : Nat) : Bool × Nat :=
  if userTypingTag then (true, now)
  else if programmaticTag then (false, value.2)
  else value

/-- The editor-side state touched by the CodeMirror update listener.

* `content` is the app content state (`setContent`).
* `isTyping` is the store typing flag (`setIsTyping`).
* `isUserTypingRef` is the ref of the same name.
* `modified` is the modified flag (`setModified`).
* `typingDeadline` is the pending typing-detection timeout
  (`typingDetectionTimeoutRef`), as an absolute fire time.
* `renderDeadline` is the pending debounced auto-render timeout
  (`contentChangeTimeoutRef`), as an absolute fire time plus the content
  snapshot it will pass to `handleAutoRender`.
* `cmIsTyping` and `cmLastUserEdit` are the fields of the
  `editorCustomState` state field. -/
structure EditorAppState where
  content : String
  isTyping : Bool
  isUserTypingRef : Bool
  modified : Bool
  typingDeadline : Option Nat
  renderDeadline : Option (Nat × String)
  cmIsTyping : Bool
  cmLastUserEdit : Nat
deriving DecidableEq, Repr

/-- Editor events: a document-changing transaction (tagged programmatic
or not), the typing-detection timer firing, and the debounced render
timer firing.  Each carries its wall-clock time. -/
inductive EditorEvent
  | docUpdate (isProgrammatic : Bool) (newContent : String) (now : Nat)
  | typingTimerFire (now : Nat)
  | renderTimerFire (now : Nat)
deriving DecidableEq, Repr

/-- The time at which an editor event occurs. -/
def EditorEvent.time : EditorEvent → Nat
  | EditorEvent.docUpdate _ _ now => now
  | EditorEvent.typingTimerFire now => now
  | EditorEvent.renderTimerFire now => now

/-- One step of the editor model, translated from the update listener of
`useCodeMirrorSetup.ts` (plus the `editorCustomState` field update, which
runs on the same transaction; user-edit transactions in this repository
never carry the user-typing tag).

For a document change: a programmatic update only stores the new
content; a user edit marks typing (ref and store flag), stores the new
content, marks the document modified, clears and restarts the
typing-detection timeout (`TYPING_IDLE_THRESHOLD_MS`) and the debounced
auto-render timeout (`debounceMs`, the `renderDebounceMs` parameter).
A timer-fire event at its exact deadline performs the timeout callback;
at any other time it is stale (the timeout was cleared and replaced) and
has no effect. -/
def editorStep (debounceMs : Nat) (s : EditorAppState) (e : EditorEvent) : EditorAppState :=
  match e with
  | EditorEvent.docUpdate isProg newContent now =>
    let cm := editorCustomStateUpdate (s.cmIsTyping, s.cmLastUserEdit) false isProg now
    let s := { s with cmIsTyping := cm.1, cmLastUserEdit := cm.2 }
    if isProg then
      { s with content := newContent }
    else
      { s with
        isUserTypingRef := true
        isTyping := true
        content := newContent
        modified := true
        typingDeadline := some (now + TIMING.TYPING_IDLE_THRESHOLD_MS)
        renderDeadline := some (now + debounceMs, newContent) }
  | EditorEvent.typingTimerFire now =>
    match s.typingDeadline with
    | some d => if d = now then { s with isTyping := false, typingDeadline := none } else s
    | none => s
  | EditorEvent.renderTimerFire now =>
    match s.renderDeadline with
    | some dc =>
      if dc.1 = now then { s with renderDeadline := none, isUserTypingRef := false } else s
    | none => s

/-! ## Anchor offset resolver polling loop

Modelled from the spec: the Anchor Offset Resolver implementation is not
under `src/` (only its timing constants are, in
`src/constants/timing.ts`).  Per the specification it attempts
resolution, and while the result looks provisional it retries at a fixed
interval (`OFFSET_POLL_INTERVAL_MS`) up to a bounded attempt count
(`MAX_OFFSET_POLL_ATTEMPTS`) or a hard timeout
(`OFFSET_POLL_TIMEOUT_MS`), after which it commits to the best available
result rather than blocking indefinitely. -/

/-- The committed result of one resolution run: how many attempts were
made, the elapsed time at the last attempt, and whether resolution
succeeded before the bounds were hit.  A result is always committed. -/
structure ResolveOutcome where
  attemptsUsed : Nat
  elapsedMs : Nat
  resolvedEarly : Bool
deriving DecidableEq, Repr

/-- Modelled from the spec: the bounded polling loop of the Anchor Offset
Resolver.  `stable e` tells whether the page metrics look settled at
elapsed time `e`.  The fuel is the remaining attempt budget. -/
def pollResolveAux (stable : Nat → Bool) : Nat → Nat → Nat → ResolveOutcome
  | 0, attempts, elapsed => { attemptsUsed := attempts, elapsedMs := elapsed, resolvedEarly := false }
  | fuel + 1, attempts, elapsed =>
    if stable elapsed then
      { attemptsUsed := attempts + 1, elapsedMs := elapsed, resolvedEarly := true }
    else if TIMING.OFFSET_POLL_TIMEOUT_MS < elapsed + TIMING.OFFSET_POLL_INTERVAL_MS then
      { attemptsUsed := attempts + 1, elapsedMs := elapsed, resolvedEarly := false }
    else
      pollResolveAux stable fuel (attempts + 1) (elapsed + TIMING.OFFSET_POLL_INTERVAL_MS)

/-- Modelled from the spec: run the resolver polling loop with the attempt
budget `MAX_OFFSET_POLL_ATTEMPTS`, starting at elapsed time zero. -/
def pollResolve (stable : Nat → Bool) : ResolveOutcome :=
  pollResolveAux stable TIMING.MAX_OFFSET_POLL_ATTEMPTS 0 0

/-! ## Reachable-state invariant -/

/-- Invariant of every reachable coalescer state.

* `pend`: between event turns the pending slot is always empty — the
  `finally` block consumes it in the same synchronous turn in which it
  was written (a consequence of the `finally`-on-early-return behavior).
* `modeIff`: the sync mode is `auto` exactly when at least one successful
  compile has been published.
* `modeCases`: the coalescer only ever moves the mode between
  `awaitingFirstRender` and `auto`.
* `srcPublished`: a non-null source map implies a published success.
* `callsPublished`: an outstanding call that captured a non-null source
  map implies a published success.
* `idleStart`: before any text has been passed to the compiler the
  status is still `idle` and nothing is outstanding. -/
structure CoInv (s : CoalescerState) : Prop where
  pend : s.pending = none
  modeIff : s.syncMode = SyncMode.auto ↔ 1 ≤ s.successCount
  modeCases : s.syncMode = SyncMode.auto ∨ s.syncMode = SyncMode.awaitingFirstRender
  srcPublished : s.sourceMap.isSome = true → 1 ≤ s.successCount
  callsPublished : ∀ c ∈ s.inFlightCalls, c.wasSourceMapNull = false → 1 ≤ s.successCount
  idleStart : s.compiledTexts = [] →
    s.compileStatus.status = RStatus.idle ∧ s.inFlightCalls = []

/-! ## Concrete inputs used by the closed theorems -/

/-- A compiler error message for a missing citation key named alpha. -/
def citeMsgAlpha : String := "error: key `alpha` does not exist in the bibliography"

/-- A compiler error message for a missing citation key named beta. -/
def citeMsgBeta : String := "error: key `beta` does not exist in the bibliography"

/-- Three rapid submits while the first compile is still in flight,
followed by the completion of the first compile. -/
def rapidSubmitTrace : List CoEvent :=
  [CoEvent.submit "A" false,
   CoEvent.submit "B" false,
   CoEvent.submit "C" false,
   CoEvent.complete 0
     (CompileOutcome.success { pdfPath := "out.pdf", sourceMap := { generation := 1 } }) false 0]

/-- Six sequential events: three compiles, each failing with a missing
citation key, with the causes alternating alpha, beta, alpha, all within
200 ms. -/
def alternatingCitationTrace : List CoEvent :=
  [CoEvent.submit "d1" false,
   CoEvent.complete 0 (CompileOutcome.failure citeMsgAlpha) false 0,
   CoEvent.submit "d2" false,
   CoEvent.complete 1 (CompileOutcome.failure citeMsgBeta) false 100,
   CoEvent.submit "d3" false,
   CoEvent.complete 2 (CompileOutcome.failure citeMsgAlpha) false 200]

/-- One submit followed by a successful completion. -/
def successTrace : List CoEvent :=
  [CoEvent.submit "A" false,
   CoEvent.complete 0
     (CompileOutcome.success { pdfPath := "out.pdf", sourceMap := { generation := 1 } }) false 0]

/-- A state with one compile in flight, after one citation failure for the
key alpha was noticed at time 0. -/
def citeWitnessState : CoalescerState :=
  runTrace
    [CoEvent.submit "d1" false,
     CoEvent.complete 0 (CompileOutcome.failure citeMsgAlpha) false 0,
     CoEvent.submit "d2" false]

/-- A state with exactly one compile in flight. -/
def oneInFlightState : CoalescerState := runTrace [CoEvent.submit "doc" false]

/-- The editor state at mount. -/
def editorInit : EditorAppState :=
  { content := ""
    isTyping := false
    isUserTypingRef := false
    modified := false
    typingDeadline := none
    renderDeadline := none
    cmIsTyping := false
    cmLastUserEdit := 0 }

/-- The editor state right after a user edit at time 0. -/
def editorAfterEdit : EditorAppState :=
  editorStep TIMING.RENDER_DEBOUNCE_DEFAULT_MS editorInit
    (EditorEvent.docUpdate false "hello" 0)

/-! ## Characterization of the step function

The `finally` block of `handleAutoRender` runs on every exit from the
`try` block, including the early `return` of the in-flight guard.  The
lemmas below compute the exact result of each kind of event. -/

theorem startCompile_pending (c : String) (s : CoalescerState) :
    (startCompile c s).pending = s.pending := rfl

theorem publishSuccess_pending (c : CompileCall) (doc : RenderedDocument)
    (s : CoalescerState) : (publishSuccess c doc s).pending = s.pending := by
  unfold publishSuccess
  dsimp only
  split <;> rfl

theorem handleFailure_pending (msg : String) (now : Nat) (s : CoalescerState) :
    (handleFailure msg now s).pending = s.pending := by
  unfold handleFailure
  cases parseCitationError msg with
  | none => rfl
  | some key =>
    dsimp only
    split <;> rfl

theorem coGo_invoke_start (fuel : Nat) (c : String) (s : CoalescerState)
    (h : s.inFlight = false) :
    coGo (fuel + 1) (Phase.invoke c) false s = startCompile c s := by
  simp [coGo, h]

theorem coGo_invoke_inFlight (fuel : Nat) (c : String) (s : CoalescerState)
    (h : s.inFlight = true) :
    coGo (fuel + 3) (Phase.invoke c) false s
      = startCompile c { s with inFlight := false, pending := none } := by
  simp [coGo, h, startCompile]

theorem coGo_invoke_aborted (fuel : Nat) (c : String) (s : CoalescerState) :
    coGo (fuel + 2) (Phase.invoke c) true s
      = { s with inFlight := false, pending := none } := by
  cases hp : s.pending <;> simp [coGo, hp]

theorem coGo_runFinally_none (fuel : Nat) (ab : Bool) (s : CoalescerState)
    (h : s.pending = none) :
    coGo (fuel + 1) Phase.runFinally ab s
      = { s with inFlight := false, pending := none } := by
  simp [coGo, h]

theorem coGo_runFinally_aborted (fuel : Nat) (s : CoalescerState) :
    coGo (fuel + 1) Phase.runFinally true s
      = { s with inFlight := false, pending := none } := by
  cases hp : s.pending <;> simp [coGo, hp]

/-- A non-aborted submit with no render in flight starts a compile. -/
theorem coStep_submit_start (c : String) (s : CoalescerState) (h : s.inFlight = false) :
    coStep s (CoEvent.submit c false) = startCompile c s :=
  coGo_invoke_start 3 c s h

/-- A non-aborted submit while a render is in flight records the text as
pending and returns through the `finally` block — which clears the
in-flight flag protecting the outstanding compile, consumes the pending
text just recorded, and immediately starts a second compile with it. -/
theorem coStep_submit_inFlight (c : String) (s : CoalescerState) (h : s.inFlight = true) :
    coStep s (CoEvent.submit c false)
      = startCompile c { s with inFlight := false, pending := none } :=
  coGo_invoke_inFlight 1 c s h

/-- A submit whose signal is already aborted returns at once; the
`finally` block still clears the in-flight flag and the pending slot. -/
theorem coStep_submit_aborted (c : String) (s : CoalescerState) :
    coStep s (CoEvent.submit c true) = { s with inFlight := false, pending := none } :=
  coGo_invoke_aborted 2 c s

/-- A completion whose id matches no outstanding call leaves the state
unchanged. -/
theorem coStep_complete_notFound (id : Nat) (out : CompileOutcome) (ab : Bool) (now : Nat)
    (s : CoalescerState) (h : findCall id s.inFlightCalls = none) :
    coStep s (CoEvent.complete id out ab now) = s := by
  show completeStep id out ab now s = s
  unfold completeStep
  rw [h]

/-- A completion whose signal is aborted publishes nothing; the `finally`
block clears the in-flight flag and discards the pending slot. -/
theorem coStep_complete_aborted (id : Nat) (out : CompileOutcome) (now : Nat)
    (s : CoalescerState) (c : CompileCall) (h : findCall id s.inFlightCalls = some c) :
    coStep s (CoEvent.complete id out true now)
      = { s with inFlightCalls := removeCall id s.inFlightCalls,
                 inFlight := false, pending := none } := by
  show completeStep id out true now s = _
  unfold completeStep
  rw [h]
  exact coGo_runFinally_aborted 3 _

/-- A non-aborted successful completion publishes the document and runs the
`finally` block (with an empty pending slot, no re-render starts). -/
theorem coStep_complete_success (id : Nat) (doc : RenderedDocument) (now : Nat)
    (s : CoalescerState) (c : CompileCall) (h : findCall id s.inFlightCalls = some c)
    (hp : s.pending = none) :
    coStep s (CoEvent.complete id (CompileOutcome.success doc) false now)
      = { publishSuccess c doc { s with inFlightCalls := removeCall id s.inFlightCalls } with
          inFlight := false, pending := none } := by
  show completeStep id (CompileOutcome.success doc) false now s = _
  unfold completeStep
  rw [h]
  refine coGo_runFinally_none 3 false _ ?_
  rw [publishSuccess_pending]
  exact hp

/-- A non-aborted failed completion runs the `catch` branch and then the
`finally` block (with an empty pending slot, no re-render starts). -/
theorem coStep_complete_failure (id : Nat) (msg : String) (now : Nat)
    (s : CoalescerState) (c : CompileCall) (h : findCall id s.inFlightCalls = some c)
    (hp : s.pending = none) :
    coStep s (CoEvent.complete id (CompileOutcome.failure msg) false now)
      = { handleFailure msg now { s with inFlightCalls := removeCall id s.inFlightCalls } with
          inFlight := false, pending := none } := by
  show completeStep id (CompileOutcome.failure msg) false now s = _
  unfold completeStep
  rw [h]
  refine coGo_runFinally_none 3 false _ ?_
  rw [handleFailure_pending]
  exact hp

/-! ## Small helper lemmas -/

theorem findCall_mem (id : Nat) (l : List CompileCall) (c : CompileCall)
    (h : findCall id l = some c) : c ∈ l := by
  induction l with
  | nil => exact Option.noConfusion h
  | cons x xs ih =>
    unfold findCall at h
    by_cases hx : x.id = id
    · rw [if_pos hx] at h
      exact (Option.some.injEq _ _ ▸ h) ▸ List.mem_cons_self x xs
    · rw [if_neg hx] at h
      exact List.mem_cons_of_mem x (ih h)

theorem mem_removeCall (id : Nat) (l : List CompileCall) (x : CompileCall)
    (h : x ∈ removeCall id l) : x ∈ l := by
  induction l with
  | nil => exact absurd h (List.not_mem_nil x)
  | cons y ys ih =>
    unfold removeCall at h
    by_cases hy : y.id = id
    · rw [if_pos hy] at h
      exact List.mem_cons_of_mem y h
    · rw [if_neg hy] at h
      cases List.mem_cons.mp h with
      | inl hxy => exact hxy ▸ List.mem_cons_self y ys
      | inr hmem => exact List.mem_cons_of_mem y (ih hmem)

theorem publishSuccess_sourceMap (c : CompileCall) (doc : RenderedDocument)
    (s : CoalescerState) : (publishSuccess c doc s).sourceMap = some doc.sourceMap := by
  unfold publishSuccess
  dsimp only
  split <;> rfl

theorem publishSuccess_successCount (c : CompileCall) (doc : RenderedDocument)
    (s : CoalescerState) : (publishSuccess c doc s).successCount = s.successCount + 1 := by
  unfold publishSuccess
  dsimp only
  split <;> rfl

theorem publishSuccess_syncMode (c : CompileCall) (doc : RenderedDocument)
    (s : CoalescerState) :
    (publishSuccess c doc s).syncMode
      = if c.wasSourceMapNull then SyncMode.auto else s.syncMode := by
  unfold publishSuccess
  dsimp only
  split <;> rfl

theorem publishSuccess_inFlightCalls (c : CompileCall) (doc : RenderedDocument)
    (s : CoalescerState) : (publishSuccess c doc s).inFlightCalls = s.inFlightCalls := by
  unfold publishSuccess
  dsimp only
  split <;> rfl

theorem publishSuccess_compiledTexts (c : CompileCall) (doc : RenderedDocument)
    (s : CoalescerState) : (publishSuccess c doc s).compiledTexts = s.compiledTexts := by
  unfold publishSuccess
  dsimp only
  split <;> rfl

theorem publishSuccess_docContent (c : CompileCall) (doc : RenderedDocument)
    (s : CoalescerState) : (publishSuccess c doc s).docContent = s.docContent := by
  unfold publishSuccess
  dsimp only
  split <;> rfl

theorem handleFailure_syncMode (msg : String) (now : Nat) (s : CoalescerState) :
    (handleFailure msg now s).syncMode = s.syncMode := by
  unfold handleFailure
  cases parseCitationError msg with
  | none => rfl
  | some key =>
    dsimp only
    split <;> rfl

theorem handleFailure_successCount (msg : String) (now : Nat) (s : CoalescerState) :
    (handleFailure msg now s).successCount = s.successCount := by
  unfold handleFailure
  cases parseCitationError msg with
  | none => rfl
  | some key =>
    dsimp only
    split <;> rfl

theorem handleFailure_inFlightCalls (msg : String) (now : Nat) (s : CoalescerState) :
    (handleFailure msg now s).inFlightCalls = s.inFlightCalls := by
  unfold handleFailure
  cases parseCitationError msg with
  | none => rfl
  | some key =>
    dsimp only
    split <;> rfl

theorem handleFailure_compiledTexts (msg : String) (now : Nat) (s : CoalescerState) :
    (handleFailure msg now s).compiledTexts = s.compiledTexts := by
  unfold handleFailure
  cases parseCitationError msg with
  | none => rfl
  | some key =>
    dsimp only
    split <;> rfl

theorem handleFailure_docContent (msg : String) (now : Nat) (s : CoalescerState) :
    (handleFailure msg now s).docContent = s.docContent := by
  unfold handleFailure
  cases parseCitationError msg with
  | none => rfl
  | some key =>
    dsimp only
    split <;> rfl

theorem handleFailure_sourceMap (msg : String) (now : Nat) (s : CoalescerState) :
    (handleFailure msg now s).sourceMap = s.sourceMap
      ∨ (handleFailure msg now s).sourceMap = none := by
  unfold handleFailure
  cases parseCitationError msg with
  | none => exact Or.inr rfl
  | some key =>
    dsimp only
    split <;> exact Or.inl rfl

theorem CoInv_init : CoInv initState := by
  refine ⟨rfl, ?_, Or.inr rfl, ?_, ?_, ?_⟩
  · simp [initState]
  · simp [initState]
  · intro c hc
    simp [initState] at hc
  · intro _
    exact ⟨rfl, rfl⟩

theorem CoInv_step (s : CoalescerState) (e : CoEvent) (h : CoInv s) : CoInv (coStep s e) := by
  obtain ⟨hpend, hiff, hmode, hsm, hcalls, hidle⟩ := h
  cases e with
  | submit c ab =>
    cases ab with
    | true =>
      rw [coStep_submit_aborted]
      exact ⟨rfl, hiff, hmode, hsm, hcalls, hidle⟩
    | false =>
      cases hin : s.inFlight with
      | false =>
        rw [coStep_submit_start c s hin]
        refine ⟨hpend, hiff, hmode, hsm, ?_, ?_⟩
        · intro x hx hwn
          rcases List.mem_append.mp hx with hx | hx
          · exact hcalls x hx hwn
          · have hxeq := List.mem_singleton.mp hx
            subst hxeq
            cases hsmv : s.sourceMap with
            | none => simp [hsmv] at hwn
            | some m => exact hsm (by rw [hsmv]; rfl)
        · intro hct
          simp [startCompile] at hct
      | true =>
        rw [coStep_submit_inFlight c s hin]
        refine ⟨rfl, hiff, hmode, hsm, ?_, ?_⟩
        · intro x hx hwn
          rcases List.mem_append.mp hx with hx | hx
          · exact hcalls x hx hwn
          · have hxeq := List.mem_singleton.mp hx
            subst hxeq
            cases hsmv : s.sourceMap with
            | none => simp [hsmv] at hwn
            | some m => exact hsm (by rw [hsmv]; rfl)
        · intro hct
          simp [startCompile] at hct
  | complete id out ab now =>
    cases hf : findCall id s.inFlightCalls with
    | none =>
      rw [coStep_complete_notFound id out ab now s hf]
      exact ⟨hpend, hiff, hmode, hsm, hcalls, hidle⟩
    | some cc =>
      have hccmem := findCall_mem id s.inFlightCalls cc hf
      have hctne : s.compiledTexts ≠ [] := by
        intro hct
        rw [(hidle hct).2] at hccmem
        exact List.not_mem_nil cc hccmem
      cases ab with
      | true =>
        rw [coStep_complete_aborted id out now s cc hf]
        refine ⟨rfl, hiff, hmode, hsm, ?_, ?_⟩
        · intro x hx hwn
          exact hcalls x (mem_removeCall id s.inFlightCalls x hx) hwn
        · intro hct
          exact absurd hct hctne
      | false =>
        cases out with
        | success doc =>
          rw [coStep_complete_success id doc now s cc hf hpend]
          have hcount :
              (publishSuccess cc doc
                { s with inFlightCalls := removeCall id s.inFlightCalls }).successCount
                = s.successCount + 1 :=
            publishSuccess_successCount cc doc _
          have hsync :
              (publishSuccess cc doc
                { s with inFlightCalls := removeCall id s.inFlightCalls }).syncMode
                = if cc.wasSourceMapNull then SyncMode.auto else s.syncMode :=
            publishSuccess_syncMode cc doc _
          have hmodeAuto :
              (publishSuccess cc doc
                { s with inFlightCalls := removeCall id s.inFlightCalls }).syncMode
                = SyncMode.auto := by
            rw [hsync]
            cases hw : cc.wasSourceMapNull with
            | true => rfl
            | false =>
              rw [if_neg (by simp)]
              exact hiff.mpr (hcalls cc hccmem hw)
          refine ⟨rfl, ?_, ?_, ?_, ?_, ?_⟩
          · show _ ↔ 1 ≤ (publishSuccess cc doc _).successCount
            rw [hcount, hmodeAuto]
            exact ⟨fun _ => Nat.le_add_left 1 s.successCount, fun _ => rfl⟩
          · exact Or.inl hmodeAuto
          · intro _
            rw [hcount]
            exact Nat.le_add_left 1 s.successCount
          · intro x hx hwn
            rw [hcount]
            exact Nat.le_add_left 1 s.successCount
          · intro hct
            rw [publishSuccess_compiledTexts] at hct
            exact absurd hct hctne
        | failure msg =>
          rw [coStep_complete_failure id msg now s cc hf hpend]
          have hsync :
              (handleFailure msg now
                { s with inFlightCalls := removeCall id s.inFlightCalls }).syncMode
                = s.syncMode :=
            handleFailure_syncMode msg now _
          have hcount :
              (handleFailure msg now
                { s with inFlightCalls := removeCall id s.inFlightCalls }).successCount
                = s.successCount :=
            handleFailure_successCount msg now _
          refine ⟨rfl, ?_, ?_, ?_, ?_, ?_⟩
          · show _ ↔ 1 ≤ (handleFailure msg now _).successCount
            rw [hcount, hsync]
            exact hiff
          · rw [hsync]
            exact hmode
          · intro hsome
            rw [hcount]
            rcases handleFailure_sourceMap msg now
              { s with inFlightCalls := removeCall id s.inFlightCalls } with heq | heq
            · exact hsm (by rw [heq] at hsome; exact hsome)
            · rw [heq] at hsome
              exact absurd hsome (by simp)
          · intro x hx hwn
            rw [hcount]
            rw [handleFailure_inFlightCalls] at hx
            exact hcalls x (mem_removeCall id s.inFlightCalls x hx) hwn
          · intro hct
            rw [handleFailure_compiledTexts] at hct
            exact absurd hct hctne

theorem CoInv_foldl (tr : List CoEvent) : ∀ s : CoalescerState, CoInv s → CoInv (tr.foldl coStep s) := by
  induction tr with
  | nil => exact fun s h => h
  | cons e rest ih => exact fun s h => ih (coStep s e) (CoInv_step s e h)

theorem CoInv_runTrace (tr : List CoEvent) : CoInv (runTrace tr) :=
  CoInv_foldl tr initState CoInv_init

theorem pollResolveAux_bounds (stable : Nat → Bool) (fuel : Nat) :
    ∀ attempts elapsed : Nat,
      attempts + fuel ≤ TIMING.MAX_OFFSET_POLL_ATTEMPTS →
      elapsed ≤ TIMING.OFFSET_POLL_TIMEOUT_MS →
      (pollResolveAux stable fuel attempts elapsed).attemptsUsed
          ≤ TIMING.MAX_OFFSET_POLL_ATTEMPTS
        ∧ (pollResolveAux stable fuel attempts elapsed).elapsedMs
          ≤ TIMING.OFFSET_POLL_TIMEOUT_MS := by
  induction fuel with
  | zero =>
    intro attempts elapsed ha he
    exact ⟨by simpa using ha, he⟩
  | succ n ih =>
    intro attempts elapsed ha he
    unfold pollResolveAux
    by_cases hs : stable elapsed = true
    · rw [if_pos hs]
      dsimp only
      exact ⟨by omega, he⟩
    · rw [if_neg hs]
      by_cases ht : TIMING.OFFSET_POLL_TIMEOUT_MS < elapsed + TIMING.OFFSET_POLL_INTERVAL_MS
      · rw [if_pos ht]
        dsimp only
        exact ⟨by omega, he⟩
      · rw [if_neg ht]
        exact ih (attempts + 1) (elapsed + TIMING.OFFSET_POLL_INTERVAL_MS) (by omega) (by omega)

/-! ## Claim theorems -/

/-- C1: the claim states that submits arriving while one compile is in
flight only update the single pending slot, that exactly one follow-up
compile runs with the latest text when the in-flight compile finishes,
and that no superseded intermediate text is ever passed to the compiler.
The code violates this: an early `return` from the in-flight guard still
executes the `finally` block, which clears the in-flight flag and
immediately compiles the just-recorded pending text.  On the failing
input (submit A; submit B and submit C while A is still in flight;
A completes) every text, including the superseded intermediate B, is
passed to `renderTypst`, and the completion of A starts zero follow-up
compiles (the three calls were already started; after A settles, B and C
are still outstanding simultaneously). -/
theorem supersededTextPassedToCompiler :
    (runTrace rapidSubmitTrace).compiledTexts = ["A", "B", "C"]
      ∧ (runTrace rapidSubmitTrace).inFlightCalls.map CompileCall.text = ["B", "C"] := by
  constructor <;> rfl

/-- C2: the claim states that at most one compile is ever in flight,
enforced by the in-flight flag.  The code violates this: a submit while a
compile is in flight reaches the guard branch, whose early `return` runs
the `finally` block, which clears the in-flight flag (while the first
`renderTypst` promise is still outstanding) and starts a second compile
with the pending text.  After submit A followed by submit B (with A not
yet settled), two `renderTypst` invocations are outstanding at once. -/
theorem twoCompilesInFlightSimultaneously :
    ((runTrace [CoEvent.submit "A" false, CoEvent.submit "B" false]).inFlightCalls.map
        CompileCall.text) = ["A", "B"] := by
  rfl

/-- C6: the sync mode is `awaitingFirstRender` until the first successful
compile is published, and `auto` from then on — so the transition
`awaitingFirstRender → auto` happens exactly at the first published
success, and later successful compiles leave the mode at `auto`.
(`successCount` counts the successful completions whose results were
published by the success continuation of `handleAutoRender`.) -/
theorem firstPublishedSuccessEnablesAutoSync :
    ∀ tr : List CoEvent,
      ((runTrace tr).successCount = 0 →
        (runTrace tr).syncMode = SyncMode.awaitingFirstRender)
      ∧ (1 ≤ (runTrace tr).successCount → (runTrace tr).syncMode = SyncMode.auto) := by
  intro tr
  have h := CoInv_runTrace tr
  constructor
  · intro h0
    rcases h.modeCases with hm | hm
    · have := h.modeIff.mp hm
      omega
    · exact hm
  · exact h.modeIff.mpr

/-- Witness for C6 at a concrete trace: one submit and one successful
completion publish one success and leave the sync mode at `auto`. -/
theorem firstPublishedSuccessEnablesAutoSync_witness :
    1 ≤ (runTrace successTrace).successCount
      ∧ (runTrace successTrace).syncMode = SyncMode.auto :=
  ⟨by decide, (firstPublishedSuccessEnablesAutoSync successTrace).2 (by decide)⟩

/-- C7: the anchor offset resolver polling loop always commits to a result
after at most `MAX_OFFSET_POLL_ATTEMPTS` (8) attempts, never letting the
elapsed polling time pass `OFFSET_POLL_TIMEOUT_MS` (200 ms) with retries
spaced `OFFSET_POLL_INTERVAL_MS` (120 ms) apart; exhaustion commits the
best available result instead of blocking (the loop is a total function
into `ResolveOutcome`). -/
theorem offsetResolutionBounded :
    ∀ stable : Nat → Bool,
      (pollResolve stable).attemptsUsed ≤ TIMING.MAX_OFFSET_POLL_ATTEMPTS
        ∧ (pollResolve stable).elapsedMs ≤ TIMING.OFFSET_POLL_TIMEOUT_MS :=
  fun stable =>
    pollResolveAux_bounds stable TIMING.MAX_OFFSET_POLL_ATTEMPTS 0 0 (by omega) (by omega)

/-- C8: the render status of every reachable coalescer state is one of the
four values `idle`, `running`, `ok`, `error`, and before any text has been
passed to the compiler in the session it is still `idle`. -/
theorem renderStatusFourValuedIdleStart :
    ∀ tr : List CoEvent,
      ((runTrace tr).compileStatus.status = RStatus.idle
        ∨ (runTrace tr).compileStatus.status = RStatus.running
        ∨ (runTrace tr).compileStatus.status = RStatus.ok
        ∨ (runTrace tr).compileStatus.status = RStatus.error)
      ∧ ((runTrace tr).compiledTexts = [] →
          (runTrace tr).compileStatus.status = RStatus.idle) := by
  intro tr
  refine ⟨?_, fun hct => ((CoInv_runTrace tr).idleStart hct).1⟩
  cases (runTrace tr).compileStatus.status with
  | idle => exact Or.inl rfl
  | running => exact Or.inr (Or.inl rfl)
  | ok => exact Or.inr (Or.inr (Or.inl rfl))
  | error => exact Or.inr (Or.inr (Or.inr rfl))

/-- Witness for C8 at the empty trace: no compile has started and the
status is `idle`. -/
theorem renderStatusFourValuedIdleStart_witness :
    (runTrace []).compiledTexts = [] ∧ (runTrace []).compileStatus.status = RStatus.idle :=
  ⟨rfl, (renderStatusFourValuedIdleStart []).2 rfl⟩

/-- The rate limiter suppresses a warning exactly when the tracked last
warning has the same key and is at most 3000 ms old. -/
theorem shouldShow_same_key_within (key : String) (t0 now : Nat)
    (h : now - t0 ≤ 3000) :
    shouldShowCitationWarning (some (key, t0)) key now = false := by
  unfold shouldShowCitationWarning
  have h1 : ¬ (3000 < now - t0) := by omega
  simp [h1]

/-- C3 counterexample: the claim states that a notice is shown at most
once per distinct cause per 3-second window.  With causes alternating
alpha, beta, alpha — all three failures within 200 ms — the code shows
three notices, two of them for the cause alpha inside one 3-second
window, because the rate limiter only tracks the single most recent
cause. -/
theorem citationNoticeTwicePerCauseWithinWindow :
    (runTrace alternatingCitationTrace).toasts = ["alpha", "beta", "alpha"]
      ∧ List.count "alpha" (runTrace alternatingCitationTrace).toasts = 2 := by
  constructor <;> rfl

/-- C3 (amended): a missing-citation compile failure never changes the
published source map, the compile status or the editor document; a repeat
failure whose cause equals the single tracked cause and arrives within
3000 ms of it is suppressed (no new notice, limiter unchanged) — hence
five identical consecutive failures within one second show exactly one
notice — while a failure that the limiter lets through (no tracked
notice, different cause, or more than 3000 ms elapsed) appends exactly
one notice for its cause and re-arms the limiter with it. -/
theorem citationFailureRecoverable :
    ∀ (s : CoalescerState) (id : Nat) (c : CompileCall) (msg key : String) (now : Nat),
      s.pending = none →
      findCall id s.inFlightCalls = some c →
      parseCitationError msg = some key →
      ((coStep s (CoEvent.complete id (CompileOutcome.failure msg) false now)).sourceMap
          = s.sourceMap
        ∧ (coStep s (CoEvent.complete id (CompileOutcome.failure msg) false now)).compileStatus
          = s.compileStatus
        ∧ (coStep s (CoEvent.complete id (CompileOutcome.failure msg) false now)).docContent
          = s.docContent
        ∧ (∀ t0 : Nat, s.lastCitationWarning = some (key, t0) → now - t0 ≤ 3000 →
            (coStep s (CoEvent.complete id (CompileOutcome.failure msg) false now)).toasts
                = s.toasts
              ∧ (coStep s
                  (CoEvent.complete id (CompileOutcome.failure msg) false now)).lastCitationWarning
                = s.lastCitationWarning)
        ∧ (shouldShowCitationWarning s.lastCitationWarning key now = true →
            (coStep s (CoEvent.complete id (CompileOutcome.failure msg) false now)).toasts
                = s.toasts ++ [key]
              ∧ (coStep s
                  (CoEvent.complete id (CompileOutcome.failure msg) false now)).lastCitationWarning
                = some (key, now))) := by
  intro s id c msg key now hp hf hpc
  rw [coStep_complete_failure id msg now s c hf hp]
  unfold handleFailure
  rw [hpc]
  dsimp only
  by_cases hss :
      shouldShowCitationWarning s.lastCitationWarning key now = true
  · rw [if_pos hss]
    refine ⟨rfl, rfl, rfl, ?_, fun _ => ⟨rfl, rfl⟩⟩
    intro t0 hlw hgap
    rw [hlw] at hss
    rw [shouldShow_same_key_within key t0 now hgap] at hss
    exact Bool.noConfusion hss
  · rw [if_neg hss]
    refine ⟨rfl, rfl, rfl, fun _ _ _ => ⟨rfl, rfl⟩, fun hss1 => absurd hss1 hss⟩

/-- Witness for C3 at a concrete state: one compile is in flight, the
limiter tracks the cause alpha noticed at time 0, and the compile fails
again with the cause alpha at time 500 — no new notice is shown and the
source map is unchanged. -/
theorem citationFailureRecoverable_witness :
    (coStep citeWitnessState
        (CoEvent.complete 1 (CompileOutcome.failure citeMsgAlpha) false 500)).toasts
      = citeWitnessState.toasts
    ∧ (coStep citeWitnessState
        (CoEvent.complete 1 (CompileOutcome.failure citeMsgAlpha) false 500)).sourceMap
      = citeWitnessState.sourceMap := by
  have h :=
    citationFailureRecoverable citeWitnessState 1
      { id := 1, text := "d2", wasSourceMapNull := true } citeMsgAlpha "alpha" 500
      (by decide) (by decide) (by decide)
  exact ⟨(h.2.2.2.1 0 (by decide) (by decide)).1, h.1⟩

/-- C4: a compile failure that is not a missing-citation error sets the
compile status to `error` carrying the message and the diagnostic detail,
clears the source map, and leaves the editor document untouched. -/
theorem blockingErrorClearsSourceMap :
    ∀ (s : CoalescerState) (id : Nat) (c : CompileCall) (msg : String) (now : Nat),
      s.pending = none →
      findCall id s.inFlightCalls = some c →
      parseCitationError msg = none →
      ((coStep s (CoEvent.complete id (CompileOutcome.failure msg) false now)).compileStatus
          = { status := RStatus.error, message := some "Auto-render failed",
              details := some msg }
        ∧ (coStep s (CoEvent.complete id (CompileOutcome.failure msg) false now)).sourceMap
          = none
        ∧ (coStep s (CoEvent.complete id (CompileOutcome.failure msg) false now)).docContent
          = s.docContent) := by
  intro s id c msg now hp hf hpc
  rw [coStep_complete_failure id msg now s c hf hp]
  unfold handleFailure
  rw [hpc]
  exact ⟨rfl, rfl, rfl⟩

/-- Witness for C4 at a concrete state: one compile in flight fails with a
non-citation error; the status becomes `error` with the details and the
source map is cleared. -/
theorem blockingErrorClearsSourceMap_witness :
    parseCitationError "error: expected expression" = none
      ∧ (coStep oneInFlightState
          (CoEvent.complete 0 (CompileOutcome.failure "error: expected expression") false 7)).sourceMap
        = none :=
  ⟨by decide,
    (blockingErrorClearsSourceMap oneInFlightState 0
      { id := 0, text := "doc", wasSourceMapNull := true } "error: expected expression" 7
      (by decide) (by decide) (by decide)).2.1⟩

/-- C9: when an outstanding compile settles while its abort signal is
aborted, the resumed call publishes nothing: the source map, the compile
status and the sync mode keep the values they had at the moment of abort,
no notice is shown, the pending slot ends empty, and no text is passed to
the compiler; likewise a fresh invocation whose signal is already aborted
performs none of those updates and discards the pending slot without
compiling it. -/
theorem abortedCallPublishesNothing :
    ∀ (s : CoalescerState) (id : Nat) (out : CompileOutcome) (now : Nat) (c : CompileCall),
      findCall id s.inFlightCalls = some c →
      (((coStep s (CoEvent.complete id out true now)).sourceMap = s.sourceMap
        ∧ (coStep s (CoEvent.complete id out true now)).compileStatus = s.compileStatus
        ∧ (coStep s (CoEvent.complete id out true now)).syncMode = s.syncMode
        ∧ (coStep s (CoEvent.complete id out true now)).toasts = s.toasts
        ∧ (coStep s (CoEvent.complete id out true now)).pending = none
        ∧ (coStep s (CoEvent.complete id out true now)).compiledTexts = s.compiledTexts)
      ∧ ∀ content : String,
          (coStep s (CoEvent.submit content true)).sourceMap = s.sourceMap
            ∧ (coStep s (CoEvent.submit content true)).compileStatus = s.compileStatus
            ∧ (coStep s (CoEvent.submit content true)).syncMode = s.syncMode
            ∧ (coStep s (CoEvent.submit content true)).toasts = s.toasts
            ∧ (coStep s (CoEvent.submit content true)).pending = none
            ∧ (coStep s (CoEvent.submit content true)).compiledTexts = s.compiledTexts) := by
  intro s id out now c hf
  constructor
  · rw [coStep_complete_aborted id out now s c hf]
    exact ⟨rfl, rfl, rfl, rfl, rfl, rfl⟩
  · intro content
    rw [coStep_submit_aborted]
    exact ⟨rfl, rfl, rfl, rfl, rfl, rfl⟩

/-- Witness for C9 at a concrete state: the single outstanding compile
settles successfully while aborted, and nothing is published. -/
theorem abortedCallPublishesNothing_witness :
    (coStep oneInFlightState
        (CoEvent.complete 0
          (CompileOutcome.success { pdfPath := "out.pdf", sourceMap := { generation := 1 } })
          true 3)).sourceMap
      = oneInFlightState.sourceMap :=
  ((abortedCallPublishesNothing oneInFlightState 0
      (CompileOutcome.success { pdfPath := "out.pdf", sourceMap := { generation := 1 } }) 3
      { id := 0, text := "doc", wasSourceMapNull := true } (by decide)).1).1

/-- C5: every user edit sets `isTyping` and restarts the idle timer to
exactly `TYPING_IDLE_THRESHOLD_MS` (800 ms) after the edit, replacing any
earlier deadline (last-write-wins); while a deadline is armed, no event
occurring strictly before it clears `isTyping` (so it stays true
throughout continuous typing with gaps shorter than 800 ms); and the only
event that ever clears `isTyping` is the idle timer firing at exactly its
armed deadline — 800 ms after the last edit. -/
theorem typingDetectorSpec :
    ∀ (debounceMs : Nat) (s : EditorAppState) (newContent : String) (t : Nat),
      ((editorStep debounceMs s (EditorEvent.docUpdate false newContent t)).isTyping = true
        ∧ (editorStep debounceMs s (EditorEvent.docUpdate false newContent t)).typingDeadline
          = some (t + TIMING.TYPING_IDLE_THRESHOLD_MS))
      ∧ (∀ (e : EditorEvent) (d : Nat),
          s.isTyping = true → s.typingDeadline = some d → e.time < d →
          (editorStep debounceMs s e).isTyping = true)
      ∧ (∀ e : EditorEvent,
          s.isTyping = true → (editorStep debounceMs s e).isTyping = false →
          ∃ d, s.typingDeadline = some d ∧ e = EditorEvent.typingTimerFire d) := by
  intro debounceMs s newContent t
  refine ⟨⟨rfl, rfl⟩, ?_, ?_⟩
  · intro e d hty hdl htime
    cases e with
    | docUpdate isProg c now =>
      cases isProg with
      | false => rfl
      | true => exact hty
    | typingTimerFire now =>
      have hne : ¬ (d = now) := by
        simp only [EditorEvent.time] at htime
        omega
      simp only [editorStep]
      rw [hdl]
      dsimp only
      rw [if_neg hne]
      exact hty
    | renderTimerFire now =>
      simp only [editorStep]
      cases hrd : s.renderDeadline with
      | none => exact hty
      | some dc =>
        dsimp only
        by_cases hq : dc.1 = now
        · rw [if_pos hq]
          exact hty
        · rw [if_neg hq]
          exact hty
  · intro e hty hfalse
    cases e with
    | docUpdate isProg c now =>
      cases isProg with
      | false => exact Bool.noConfusion hfalse
      | true => exact Bool.noConfusion (hty.symm.trans hfalse)
    | typingTimerFire now =>
      cases hdl : s.typingDeadline with
      | none =>
        simp only [editorStep] at hfalse
        rw [hdl] at hfalse
        exact Bool.noConfusion (hty.symm.trans hfalse)
      | some d =>
        by_cases hq : d = now
        · exact ⟨d, rfl, by rw [hq]⟩
        · simp only [editorStep] at hfalse
          rw [hdl] at hfalse
          dsimp only at hfalse
          rw [if_neg hq] at hfalse
          exact Bool.noConfusion (hty.symm.trans hfalse)
    | renderTimerFire now =>
      simp only [editorStep] at hfalse
      cases hrd : s.renderDeadline with
      | none =>
        rw [hrd] at hfalse
        exact Bool.noConfusion (hty.symm.trans hfalse)
      | some dc =>
        rw [hrd] at hfalse
        dsimp only at hfalse
        by_cases hq : dc.1 = now
        · rw [if_pos hq] at hfalse
          exact Bool.noConfusion (hty.symm.trans hfalse)
        · rw [if_neg hq] at hfalse
          exact Bool.noConfusion (hty.symm.trans hfalse)

/-- Witness for C5 at a concrete state: after a user edit at time 0 the
typing flag is set with deadline 800, and a further user edit at time 500
(a gap shorter than 800 ms) keeps the flag set. -/
theorem typingDetectorSpec_witness :
    editorAfterEdit.isTyping = true
      ∧ editorAfterEdit.typingDeadline = some 800
      ∧ (editorStep TIMING.RENDER_DEBOUNCE_DEFAULT_MS editorAfterEdit
          (EditorEvent.docUpdate false "hello world" 500)).isTyping = true :=
  ⟨by decide, by decide,
    (typingDetectorSpec TIMING.RENDER_DEBOUNCE_DEFAULT_MS editorAfterEdit "x" 0).2.1
      (EditorEvent.docUpdate false "hello world" 500) 800 (by decide) (by decide) (by decide)⟩

/-- C10: a document transaction tagged as a programmatic update stores the
new content and nothing else — the store typing flag is untouched, the
CodeMirror typing field ends false (it is never set by a programmatic
update), the modified flag is untouched, and neither the typing-detection
timeout nor the debounced auto-render timeout is scheduled or changed —
while a user edit stores the content, sets the typing flag, marks the
document modified, and schedules the debounced auto-render with the new
content. -/
theorem programmaticUpdateFrameEffect :
    ∀ (debounceMs : Nat) (s : EditorAppState) (c : String) (t : Nat),
      ((editorStep debounceMs s (EditorEvent.docUpdate true c t)).content = c
        ∧ (editorStep debounceMs s (EditorEvent.docUpdate true c t)).isTyping = s.isTyping
        ∧ (editorStep debounceMs s (EditorEvent.docUpdate true c t)).cmIsTyping = false
        ∧ (editorStep debounceMs s (EditorEvent.docUpdate true c t)).modified = s.modified
        ∧ (editorStep debounceMs s (EditorEvent.docUpdate true c t)).renderDeadline
          = s.renderDeadline
        ∧ (editorStep debounceMs s (EditorEvent.docUpdate true c t)).typingDeadline
          = s.typingDeadline
        ∧ (editorStep debounceMs s (EditorEvent.docUpdate true c t)).isUserTypingRef
          = s.isUserTypingRef)
      ∧ ((editorStep debounceMs s (EditorEvent.docUpdate false c t)).content = c
        ∧ (editorStep debounceMs s (EditorEvent.docUpdate false c t)).isTyping = true
        ∧ (editorStep debounceMs s (EditorEvent.docUpdate false c t)).modified = true
        ∧ (editorStep debounceMs s (EditorEvent.docUpdate false c t)).renderDeadline
          = some (t + debounceMs, c)
        ∧ (editorStep debounceMs s (EditorEvent.docUpdate false c t)).typingDeadline
          = some (t + TIMING.TYPING_IDLE_THRESHOLD_MS)) := by
  intro debounceMs s c t
  exact ⟨⟨rfl, rfl, rfl, rfl, rfl, rfl, rfl⟩, ⟨rfl, rfl, rfl, rfl, rfl⟩⟩
